import Mathlib

/-!
Shallow embedding of the protocol-translation core of the Shannon Bedrock
integration (src/ai/bedrock-provider.js and src/ai/bedrock-client.js):
the message transcoder between the Anthropic and Bedrock content-block
schemas, the multi-turn conversation driver, the cost estimator, and the
streaming reassembler.  JavaScript objects are modelled by explicit
structures, absent (undefined) fields by Option, untyped payloads by a
Json inductive, and JS numbers appearing in the cost arithmetic by Rat.
-/

/-- JSON values: the untyped JavaScript data carried in content blocks. -/
inductive Json where
| null : Json
| bool (b : Bool) : Json
| num (n : Int) : Json
| str (s : String) : Json
| arr (xs : List Json) : Json
| obj (fields : List (String × Json)) : Json

/-- Escape of a single character inside a JSON string literal, as
JSON.stringify performs it. -/
def escapeChar (c : Char) : String :=
  if c = Char.ofNat 34 then String.singleton (Char.ofNat 92) ++ String.singleton (Char.ofNat 34)
  else if c = Char.ofNat 92 then String.singleton (Char.ofNat 92) ++ String.singleton (Char.ofNat 92)
  else if c = Char.ofNat 10 then String.singleton (Char.ofNat 92) ++ "n"
  else if c = Char.ofNat 13 then String.singleton (Char.ofNat 92) ++ "r"
  else if c = Char.ofNat 9 then String.singleton (Char.ofNat 92) ++ "t"
  else if c = Char.ofNat 8 then String.singleton (Char.ofNat 92) ++ "b"
  else if c = Char.ofNat 12 then String.singleton (Char.ofNat 92) ++ "f"
  else if c.toNat < 32 then
    String.singleton (Char.ofNat 92) ++ "u00" ++
      String.singleton (Char.ofNat (if c.toNat / 16 < 10 then 48 + c.toNat / 16 else 87 + c.toNat / 16)) ++
      String.singleton (Char.ofNat (if c.toNat % 16 < 10 then 48 + c.toNat % 16 else 87 + c.toNat % 16))
  else String.singleton c

/-- A JSON string literal with quotes and escaping, as JSON.stringify emits. -/
def renderString (s : String) : String :=
  String.singleton (Char.ofNat 34) ++ String.join (s.data.map escapeChar) ++ String.singleton (Char.ofNat 34)

mutual

/-- JSON serialization, modelling JSON.stringify on plain data. -/
def Json.render : Json → String
| .null => "null"
| .bool true => "true"
| .bool false => "false"
| .num n => toString n
| .str s => renderString s
| .arr xs => "[" ++ Json.renderList xs ++ "]"
| .obj fs => String.singleton (Char.ofNat 123) ++ Json.renderFields fs ++ String.singleton (Char.ofNat 125)

def Json.renderList : List Json → String
| [] => ""
| [x] => Json.render x
| x :: y :: xs => Json.render x ++ "," ++ Json.renderList (y :: xs)

def Json.renderFields : List (String × Json) → String
| [] => ""
| [(k, v)] => renderString k ++ ":" ++ Json.render v
| (k, v) :: p :: fs => renderString k ++ ":" ++ Json.render v ++ "," ++ Json.renderFields (p :: fs)

end

/-- The `source` object of an Anthropic image block; every field may be
absent in JavaScript. -/
structure ImageSource where
  type : Option String
  data : Option String
  bytes : Option String

mutual

/-- Anthropic-side content blocks: the tagged union the transcoder
dispatches on via `block.type`.  `other` stands for any block whose
`type` tag is none of the four recognized strings; its `raw` field is
the whole JavaScript object. -/
inductive ContentBlock where
| text (s : String) : ContentBlock
| toolUse (id name : String) (input : Json) : ContentBlock
| toolResult (toolUseId : String) (content : TRContent) : ContentBlock
| image (source : Option ImageSource) : ContentBlock
| other (raw : Json) : ContentBlock

/-- The `content` field of a tool_result block: an array of blocks, a
plain string, or any other JavaScript value. -/
inductive TRContent where
| blocks (bs : List ContentBlock) : TRContent
| str (s : String) : TRContent
| other (raw : Json) : TRContent

end

/-- JSON image of an image source, with absent fields omitted, as
JSON.stringify would serialize the object. -/
def ImageSource.toJson (s : ImageSource) : Json :=
  .obj ((match s.type with | some t => [("type", Json.str t)] | none => []) ++
        (match s.data with | some d => [("data", Json.str d)] | none => []) ++
        (match s.bytes with | some b => [("bytes", Json.str b)] | none => []))

mutual

/-- JSON image of an Anthropic content block, used to model
JSON.stringify(block) in the transcoder fallback arms. -/
def ContentBlock.toJson : ContentBlock → Json
| .text s => .obj [("type", Json.str "text"), ("text", Json.str s)]
| .toolUse i n inp => .obj [("type", Json.str "tool_use"), ("id", Json.str i), ("name", Json.str n), ("input", inp)]
| .toolResult t c => .obj [("type", Json.str "tool_result"), ("tool_use_id", Json.str t), ("content", TRContent.toJson c)]
| .image src => .obj [("type", Json.str "image"), ("source", match src with | none => Json.null | some s => s.toJson)]
| .other raw => raw

def TRContent.toJson : TRContent → Json
| .blocks bs => .arr (ContentBlock.listToJson bs)
| .str s => .str s
| .other raw => raw

def ContentBlock.listToJson : List ContentBlock → List Json
| [] => []
| b :: bs => ContentBlock.toJson b :: ContentBlock.listToJson bs

end

/-- JavaScript `a || d` on a possibly-absent string: an absent or empty
(falsy) string falls through to the default. -/
def jsOrString (a : Option String) (d : String) : String :=
  match a with
  | some s => if s = "" then d else s
  | none => d

/-- JavaScript `a || b` on two possibly-absent strings. -/
def jsOrOpt (a b : Option String) : Option String :=
  match a with
  | some s => if s = "" then b else some s
  | none => b

/-- Blocks inside a Bedrock-side tool result: `text` or `image`. -/
inductive WireTR where
| text (s : String) : WireTR
| image (format : String) (bytes : Option String) : WireTR

/-- Bedrock-side wire blocks, as produced by `transformMessageToBedrock`:
of the shapes `text`, `toolUse`, `toolResult` and `image`. -/
inductive WireBlock where
| text (s : String) : WireBlock
| toolUse (toolUseId name : String) (input : Json) : WireBlock
| toolResult (toolUseId : String) (content : List WireTR) : WireBlock
| image (format : String) (bytes : Option String) : WireBlock

/-- One inner block of a tool result content array, transformed to
Bedrock format (the arrow function inside `transformToolResultToBedrock`):
text and image pass through, anything else is JSON.stringify-ed into a
text payload. -/
def transformTRInner (c : ContentBlock) : WireTR :=
  match c with
  | .text s => .text s
  | .image src => .image (jsOrString (src.bind (·.type)) "png") (jsOrOpt (src.bind (·.data)) (src.bind (·.bytes)))
  | c => .text (Json.render c.toJson)

/-- `transformToolResultToBedrock`: an array content is mapped blockwise;
a string content becomes one text block; any other value is
JSON.stringify-ed into one text block. -/
def transformToolResultToBedrock (toolUseId : String) (content : TRContent) : WireBlock :=
  .toolResult toolUseId
    (match content with
     | .blocks bs => bs.map transformTRInner
     | .str s => [.text s]
     | .other raw => [.text (Json.render raw)])

/-- One arm of the content map inside `transformMessageToBedrock`:
dispatch on `block.type` with a JSON.stringify fallback. -/
def transformBlockToBedrock (b : ContentBlock) : WireBlock :=
  match b with
  | .text s => .text s
  | .toolUse i n inp => .toolUse i n inp
  | .toolResult t c => transformToolResultToBedrock t c
  | .image src => .image (jsOrString (src.bind (·.type)) "png") (jsOrOpt (src.bind (·.data)) (src.bind (·.bytes)))
  | .other raw => .text (Json.render raw)

/-- The `content` field of an Anthropic message: a plain string, an array
of blocks, or any other JavaScript value. -/
inductive MsgContent where
| str (s : String) : MsgContent
| blocks (bs : List ContentBlock) : MsgContent
| other (raw : Json) : MsgContent

/-- An Anthropic-side message. -/
structure AnthMessage where
  role : String
  content : MsgContent

/-- A Bedrock-side message as built for the Converse request. -/
structure WireMessage where
  role : String
  content : List WireBlock

/-- `transformMessageToBedrock`: a string content becomes one text block,
an array content is mapped blockwise, any other content is
JSON.stringify-ed into one text block.  The role passes through. -/
def transformMessageToBedrock (m : AnthMessage) : WireMessage :=
  match m.content with
  | .str s => ⟨m.role, [.text s]⟩
  | .blocks bs => ⟨m.role, bs.map transformBlockToBedrock⟩
  | .other raw => ⟨m.role, [.text (Json.render raw)]⟩

/-- The `toolUse` object of a Bedrock reply block. -/
structure BedrockToolUse where
  toolUseId : String
  name : String
  input : Json

/-- One content block of a Bedrock reply message.  `transformBedrockMessage`
inspects only the `text` and `toolUse` fields; `rest` stands for all
other fields the block may carry (image, toolResult, extensions), which
the decoder never reads. -/
structure BedrockBlock where
  text : Option String
  toolUse : Option BedrockToolUse
  rest : Json

/-- Bedrock usage counters, each possibly absent. -/
structure BedrockUsage where
  inputTokens : Option Int
  outputTokens : Option Int

/-- A Bedrock reply message (`response.output.message`); every field may be
absent in JavaScript. -/
structure BedrockMessage where
  id : Option String
  content : Option (List BedrockBlock)
  stopReason : Option String
  usage : Option BedrockUsage

/-- Accumulated usage counters in the Claude SDK shape. -/
structure UsageCounters where
  input_tokens : Int
  output_tokens : Int

/-- The decoded assistant message in Claude SDK shape (the `message` field
of the yielded assistant notification). -/
structure SDKMessage where
  id : String
  role : String
  content : List ContentBlock
  model : String
  stop_reason : Option String
  usage : UsageCounters

/-- The `for (const block of bedrockMessage.content)` loop of
`transformBedrockMessage`, with `content.push` modelled by appending to an
accumulator: a block with a truthy `text` field pushes a text block, a
block with a `toolUse` field pushes a tool_use block, and both pushes can
fire for one block, in that order. -/
def decodeContentLoop : List BedrockBlock → List ContentBlock → List ContentBlock
| [], acc => acc
| b :: restBlocks, acc =>
    let acc1 := match b.text with
      | some s => if s = "" then acc else acc ++ [ContentBlock.text s]
      | none => acc
    let acc2 := match b.toolUse with
      | some tu => acc1 ++ [ContentBlock.toolUse tu.toolUseId tu.name tu.input]
      | none => acc1
    decodeContentLoop restBlocks acc2

/-- The body of `transformBedrockMessage` on a present message: id defaults
to a time-derived identifier when absent or empty, role is forced to
assistant, the content array (truthy even when empty) is decoded by the
push loop, usage counters default to 0 when absent.  `Date.now()` is
modelled by `now`. -/
def decodeBedrockMessage (m : BedrockMessage) (modelId : String) (now : Nat) : SDKMessage :=
  { id := jsOrString m.id ("bedrock-" ++ toString now)
    role := "assistant"
    content := match m.content with | some bs => decodeContentLoop bs [] | none => []
    model := modelId
    stop_reason := m.stopReason
    usage := ⟨(m.usage.bind (·.inputTokens)).getD 0, (m.usage.bind (·.outputTokens)).getD 0⟩ }

/-- `transformBedrockMessage`: decode a Bedrock reply message to the Claude
SDK shape.  Calling it on an absent message (`response.output?.message`
undefined) reproduces the JavaScript TypeError raised on reading
`.content` of undefined, which the driver catch converts to an error
result; the error text is modelled abstractly. -/
def transformBedrockMessage (bedrockMessage : Option BedrockMessage) (modelId : String) (now : Nat) :
    Except String SDKMessage :=
  match bedrockMessage with
  | none => .error "Cannot read properties of undefined (reading content)"
  | some m => .ok (decodeBedrockMessage m modelId now)

/-- The `output` field of a Converse response. -/
structure BedrockOutput where
  message : Option BedrockMessage

/-- A Converse response: the stop reason lives on the response itself. -/
structure BedrockResponse where
  output : Option BedrockOutput
  stopReason : Option String

/-- One entry of `conversationHistory`: a role and a content array (the
initial user entry holds one text block; each assistant entry holds the
raw Bedrock reply content, `|| []` when absent). -/
abbrev HistEntry := String × List BedrockBlock

/-- The reduce over `conversationHistory`: each entry contributes its
content-array length times 4 (the fixed per-block token multiplier). -/
def totalHistoryTokens (history : List HistEntry) : Nat :=
  history.foldl (fun sum msg => sum + msg.2.length * 4) 0

/-- The cost estimate: total tokens divided by 1,000,000 times the fixed
price constant 3.0 dollars per million tokens.  JS numbers modelled by Rat. -/
def estimatedCost (history : List HistEntry) : ℚ :=
  ((totalHistoryTokens history : ℚ) / 1000000) * 3

/-- The caller-visible notifications yielded by `bedrockQuery`.  Constant
fields of the JS objects (`mcp_servers: []`, the `type` tags,
`permission_denials: []`) and the wall-clock `duration_ms` are not
modelled; console diagnostics are not notifications. -/
inductive Notification where
| sysInit (model : String) (permissionMode : String) : Notification
| userEcho (prompt : String) : Notification
| assistant (msg : SDKMessage) : Notification
| result (success : Bool) (subtype : String) (error : Option String)
    (content : Option String) (totalCostUsd : ℚ) : Notification

/-- The final result yielded after the conversation loop: always
`success: true`, with subtype chosen by `turnCount >= maxTurns`. -/
def finalResult (turnCount maxTurns : Nat) (history : List HistEntry) : Notification :=
  .result true (if turnCount ≥ maxTurns then "error_max_turns" else "success") none
    (some "Task completed via Bedrock") (estimatedCost history)

/-- The `while (turnCount < maxTurns)` conversation loop of `bedrockQuery`.
The backend round trip is an oracle from the (1-based) turn number to
either a thrown error or a Converse response.  A caught error (a thrown
round trip, or the TypeError from decoding an absent reply message)
yields the error result and returns without the final result.  A stop
reason of end_turn or stop_sequence breaks out of the loop; tool_use and
max_tokens only print console diagnostics and re-enter the loop. -/
def bedrockLoop (backend : Nat → Except String BedrockResponse) (modelId : String) (now : Nat)
    (maxTurns : Nat) (turnCount : Nat) (history : List HistEntry) : List Notification :=
  if _h : turnCount < maxTurns then
    match backend (turnCount + 1) with
    | .error e => [.result false "error_during_execution" (some e) none 0]
    | .ok resp =>
      match transformBedrockMessage (resp.output.bind (·.message)) modelId now with
      | .error e => [.result false "error_during_execution" (some e) none 0]
      | .ok sdkMsg =>
        let newHistory := history ++ [("assistant", ((resp.output.bind (·.message)).bind (·.content)).getD [])]
        if resp.stopReason = some "end_turn" ∨ resp.stopReason = some "stop_sequence" then
          [.assistant sdkMsg, finalResult (turnCount + 1) maxTurns newHistory]
        else
          .assistant sdkMsg :: bedrockLoop backend modelId now maxTurns (turnCount + 1) newHistory
  else
    [finalResult turnCount maxTurns history]
termination_by maxTurns - turnCount
decreasing_by omega

/-- The model-name map of `getBedrockModelId` in bedrock-provider.js. -/
def bedrockModelMap (anthropicModel : String) : Option String :=
  if anthropicModel = "claude-sonnet-4-5-20250929" then some "us.anthropic.claude-sonnet-4-20250514-v1:0"
  else if anthropicModel = "claude-3-5-sonnet-20241022" then some "us.anthropic.claude-3-5-sonnet-20241022-v2:0"
  else if anthropicModel = "claude-3-5-sonnet-20240620" then some "anthropic.claude-3-5-sonnet-20240620-v1:0"
  else if anthropicModel = "claude-3-sonnet-20240229" then some "anthropic.claude-3-sonnet-20240229-v1:0"
  else if anthropicModel = "claude-3-opus-20240229" then some "anthropic.claude-3-opus-20240229-v1:0"
  else if anthropicModel = "claude-3-haiku-20240307" then some "anthropic.claude-3-haiku-20240307-v1:0"
  else none

/-- `getBedrockModelId`: a truthy BEDROCK_MODEL_ID environment value wins,
else the map with a fixed default. -/
def getBedrockModelId (envBedrockModelId : Option String) (anthropicModel : String) : String :=
  match envBedrockModelId with
  | some m => if m = "" then (bedrockModelMap anthropicModel).getD "us.anthropic.claude-sonnet-4-20250514-v1:0" else m
  | none => (bedrockModelMap anthropicModel).getD "us.anthropic.claude-sonnet-4-20250514-v1:0"

/-- The caller-supplied options of `bedrockQuery` that affect the
notification sequence. -/
structure QueryOptions where
  model : String
  maxTurns : Option Nat
  permissionMode : Option String

/-- `bedrockQuery`: emit the init notification and the user echo, seed the
conversation history with the prompt as one text block, then run the
conversation loop with `options.maxTurns || 100` as the cap. -/
def bedrockQuery (backend : Nat → Except String BedrockResponse) (envBedrockModelId : Option String)
    (now : Nat) (prompt : String) (options : QueryOptions) : List Notification :=
  let modelId := getBedrockModelId envBedrockModelId options.model
  let maxTurns := match options.maxTurns with | some n => if n = 0 then 100 else n | none => 100
  Notification.sysInit modelId (jsOrString options.permissionMode "default")
    :: Notification.userEcho prompt
    :: bedrockLoop backend modelId now maxTurns 0 [("user", [⟨some prompt, none, Json.null⟩])]

/-- The `message` object of a Bedrock `message_start` streaming frame:
the decoder only reads its `id` and `usage` fields, both possibly absent. -/
structure ChunkStartMessage where
  id : Option String
  usage : Option UsageCounters

/-- A parsed Bedrock streaming chunk: the `type` tag, the `message` object
(meaningful for message_start frames), and `rest` for the payload fields
the reassembler carries through without inspecting. -/
structure BedrockChunk where
  type : String
  message : Option ChunkStartMessage
  rest : Json

/-- A canonical (Anthropic-format) streaming event as enqueued by
`handleStreamingResponse`: either the synthesized message_start envelope,
or one of the five pass-through frames enqueued unchanged. -/
inductive AnthropicChunk where
| messageStart (id : String) (role : String) (content : List ContentBlock)
    (model : String) (usage : UsageCounters) : AnthropicChunk
| passthrough (c : BedrockChunk) : AnthropicChunk

/-- The chunk dispatch inside `handleStreamingResponse`: a message_start
frame is rebuilt with a synthesized id when the backend omits one (or
gives an empty one), role assistant, empty content, the known model id,
and zeroed usage when absent; the five other recognized frame types are
enqueued unchanged; anything else is not enqueued. -/
def transformStreamChunk (modelId : String) (now : Nat) (chunk : BedrockChunk) :
    Option AnthropicChunk :=
  if chunk.type = "message_start" then
    some (.messageStart
      (jsOrString (chunk.message.bind (·.id)) ("bedrock-" ++ toString now))
      "assistant" [] modelId
      ((chunk.message.bind (·.usage)).getD ⟨0, 0⟩))
  else if chunk.type = "content_block_start" ∨ chunk.type = "content_block_delta" ∨
          chunk.type = "content_block_stop" ∨ chunk.type = "message_delta" ∨
          chunk.type = "message_stop" then
    some (.passthrough chunk)
  else
    none

/-- The frame loop of `handleStreamingResponse`: events without a `chunk`
payload (modelled by `none`) are skipped, the rest are dispatched in
receipt order. -/
def handleStreamingResponse (modelId : String) (now : Nat)
    (frames : List (Option BedrockChunk)) : List AnthropicChunk :=
  frames.filterMap (fun ev => ev.bind (transformStreamChunk modelId now))

/-- The contribution of one Bedrock reply block to the decoded content: a
truthy text field contributes a text block, a toolUse field contributes a
tool_use block, in that order; a block with neither contributes nothing. -/
def decodeBlock (b : BedrockBlock) : List ContentBlock :=
  (match b.text with
   | some s => if s = "" then [] else [ContentBlock.text s]
   | none => []) ++
  (match b.toolUse with
   | some tu => [ContentBlock.toolUse tu.toolUseId tu.name tu.input]
   | none => [])

/-- JSON image of a Bedrock-side tool-result inner block, for carrying
encoded payloads into the uninspected `rest` field of a reply block. -/
def WireTR.toJson : WireTR → Json
| .text s => .obj [("text", Json.str s)]
| .image f b => .obj [("image", Json.obj [("format", Json.str f),
    ("source", Json.obj [("bytes", match b with | some s => Json.str s | none => Json.null)])])]

/-- Identification of an encoded wire block with the reply-block shape the
decoder reads: in JavaScript both are the same object, so a `text` wire
block has a `text` field, a `toolUse` wire block has a `toolUse` field,
and `toolResult` and `image` wire blocks have neither of the two fields
the decoder inspects — their payload sits in `rest`. -/
def wireToBedrockBlock : WireBlock → BedrockBlock
| .text s => ⟨some s, none, Json.null⟩
| .toolUse tid n inp => ⟨none, some ⟨tid, n, inp⟩, Json.null⟩
| .toolResult tid c => ⟨none, none,
    Json.obj [("toolUseId", Json.str tid), ("content", Json.arr (c.map WireTR.toJson))]⟩
| .image f b => ⟨none, none,
    Json.obj [("image", Json.obj [("format", Json.str f),
      ("source", Json.obj [("bytes", match b with | some s => Json.str s | none => Json.null)])])]⟩

/-- Encoding followed by decoding of a whole message: the encoded content
array is presented to `transformBedrockMessage` as the content of a reply
message. -/
def roundtripMessage (m : AnthMessage) (modelId : String) (now : Nat) :
    Except String SDKMessage :=
  transformBedrockMessage
    (some ⟨none, some ((transformMessageToBedrock m).content.map wireToBedrockBlock), none, none⟩)
    modelId now

lemma decodeContentLoop_eq (bs : List BedrockBlock) (acc : List ContentBlock) :
    decodeContentLoop bs acc = acc ++ bs.flatMap decodeBlock := by
  induction bs generalizing acc with
  | nil => simp [decodeContentLoop]
  | cons b rest ih =>
    rw [decodeContentLoop, ih]
    cases hbt : b.text with
    | none =>
      cases hbu : b.toolUse <;> simp [decodeBlock, hbt, hbu, List.append_assoc]
    | some s =>
      by_cases hs : s = "" <;>
        cases hbu : b.toolUse <;> simp [decodeBlock, hbt, hbu, hs, List.append_assoc]

/-- Whether a notification is the terminal result notification. -/
def isResult : Notification → Bool
| .result _ _ _ _ _ => true
| _ => false

lemma bedrockLoop_done (backend : Nat → Except String BedrockResponse) (modelId : String)
    (now maxTurns turnCount : Nat) (history : List HistEntry) (h : ¬ turnCount < maxTurns) :
    bedrockLoop backend modelId now maxTurns turnCount history =
      [finalResult turnCount maxTurns history] := by
  unfold bedrockLoop
  rw [dif_neg h]

lemma bedrockLoop_error (backend : Nat → Except String BedrockResponse) (modelId : String)
    (now maxTurns turnCount : Nat) (history : List HistEntry) (e : String)
    (h : turnCount < maxTurns) (hb : backend (turnCount + 1) = .error e) :
    bedrockLoop backend modelId now maxTurns turnCount history =
      [.result false "error_during_execution" (some e) none 0] := by
  unfold bedrockLoop
  rw [dif_pos h, hb]

lemma bedrockLoop_badMessage (backend : Nat → Except String BedrockResponse) (modelId : String)
    (now maxTurns turnCount : Nat) (history : List HistEntry) (resp : BedrockResponse)
    (h : turnCount < maxTurns) (hb : backend (turnCount + 1) = .ok resp)
    (hm : resp.output.bind BedrockOutput.message = none) :
    bedrockLoop backend modelId now maxTurns turnCount history =
      [.result false "error_during_execution"
        (some "Cannot read properties of undefined (reading content)") none 0] := by
  unfold bedrockLoop
  rw [dif_pos h, hb]
  simp only [hm, transformBedrockMessage]

lemma bedrockLoop_stop (backend : Nat → Except String BedrockResponse) (modelId : String)
    (now maxTurns turnCount : Nat) (history : List HistEntry) (resp : BedrockResponse)
    (bm : BedrockMessage)
    (h : turnCount < maxTurns) (hb : backend (turnCount + 1) = .ok resp)
    (hm : resp.output.bind BedrockOutput.message = some bm)
    (hstop : resp.stopReason = some "end_turn" ∨ resp.stopReason = some "stop_sequence") :
    bedrockLoop backend modelId now maxTurns turnCount history =
      [.assistant (decodeBedrockMessage bm modelId now),
       finalResult (turnCount + 1) maxTurns (history ++ [("assistant", bm.content.getD [])])] := by
  unfold bedrockLoop
  rw [dif_pos h, hb]
  simp only [hm, transformBedrockMessage, if_pos hstop, Option.some_bind]

lemma bedrockLoop_continue (backend : Nat → Except String BedrockResponse) (modelId : String)
    (now maxTurns turnCount : Nat) (history : List HistEntry) (resp : BedrockResponse)
    (bm : BedrockMessage)
    (h : turnCount < maxTurns) (hb : backend (turnCount + 1) = .ok resp)
    (hm : resp.output.bind BedrockOutput.message = some bm)
    (hstop : ¬ (resp.stopReason = some "end_turn" ∨ resp.stopReason = some "stop_sequence")) :
    bedrockLoop backend modelId now maxTurns turnCount history =
      .assistant (decodeBedrockMessage bm modelId now) ::
        bedrockLoop backend modelId now maxTurns (turnCount + 1)
          (history ++ [("assistant", bm.content.getD [])]) := by
  conv_lhs => unfold bedrockLoop
  rw [dif_pos h, hb]
  simp only [hm, transformBedrockMessage, if_neg hstop, Option.some_bind]

lemma bedrockLoop_shape (backend : Nat → Except String BedrockResponse) (modelId : String)
    (now maxTurns : Nat) :
    ∀ fuel turnCount history, maxTurns - turnCount ≤ fuel →
      ∃ pre r, bedrockLoop backend modelId now maxTurns turnCount history = pre ++ [r] ∧
        (∀ x ∈ pre, isResult x = false) ∧ isResult r = true := by
  intro fuel
  induction fuel with
  | zero =>
    intro tc hist hle
    have h : ¬ tc < maxTurns := by omega
    rw [bedrockLoop_done backend modelId now maxTurns tc hist h]
    exact ⟨[], finalResult tc maxTurns hist, rfl, by simp, rfl⟩
  | succ n ih =>
    intro tc hist hle
    by_cases h : tc < maxTurns
    · cases hb : backend (tc + 1) with
      | error e =>
        rw [bedrockLoop_error backend modelId now maxTurns tc hist e h hb]
        exact ⟨[], _, rfl, by simp, rfl⟩
      | ok resp =>
        cases hm : resp.output.bind BedrockOutput.message with
        | none =>
          rw [bedrockLoop_badMessage backend modelId now maxTurns tc hist resp h hb hm]
          exact ⟨[], _, rfl, by simp, rfl⟩
        | some bm =>
          by_cases hstop : resp.stopReason = some "end_turn" ∨ resp.stopReason = some "stop_sequence"
          · rw [bedrockLoop_stop backend modelId now maxTurns tc hist resp bm h hb hm hstop]
            refine ⟨[.assistant (decodeBedrockMessage bm modelId now)],
              finalResult (tc + 1) maxTurns (hist ++ [("assistant", bm.content.getD [])]), rfl, ?_, rfl⟩
            intro x hx
            rw [List.mem_singleton] at hx
            subst hx
            rfl
          · rw [bedrockLoop_continue backend modelId now maxTurns tc hist resp bm h hb hm hstop]
            obtain ⟨pre, r, heq, hpre, hr⟩ :=
              ih (tc + 1) (hist ++ [("assistant", bm.content.getD [])]) (by omega)
            refine ⟨.assistant (decodeBedrockMessage bm modelId now) :: pre, r,
              by rw [heq, List.cons_append], ?_, hr⟩
            intro x hx
            rcases List.mem_cons.mp hx with h1 | h2
            · subst h1; rfl
            · exact hpre x h2
    · rw [bedrockLoop_done backend modelId now maxTurns tc hist h]
      exact ⟨[], _, rfl, by simp, rfl⟩

lemma bedrockQuery_eq (backend : Nat → Except String BedrockResponse)
    (envBedrockModelId : Option String) (now : Nat) (prompt : String) (options : QueryOptions) :
    bedrockQuery backend envBedrockModelId now prompt options =
      Notification.sysInit (getBedrockModelId envBedrockModelId options.model)
          (jsOrString options.permissionMode "default") ::
        Notification.userEcho prompt ::
          bedrockLoop backend (getBedrockModelId envBedrockModelId options.model) now
            (match options.maxTurns with | some n => if n = 0 then 100 else n | none => 100)
            0 [("user", [⟨some prompt, none, Json.null⟩])] := rfl

/-- C7: for every run of the driver — whatever the backend does on each
turn and whatever the options are — the notification sequence ends in
exactly one terminal result notification: the sequence splits as a
result-free prelude followed by one result, so the result is emitted
exactly once, is always last, and is never duplicated. -/
theorem c7_result_exactly_once_and_last (backend : Nat → Except String BedrockResponse)
    (envBedrockModelId : Option String) (now : Nat) (prompt : String) (options : QueryOptions) :
    ∃ pre r, bedrockQuery backend envBedrockModelId now prompt options = pre ++ [r] ∧
      (∀ x ∈ pre, isResult x = false) ∧ isResult r = true := by
  obtain ⟨pre, r, heq, hpre, hr⟩ :=
    bedrockLoop_shape backend (getBedrockModelId envBedrockModelId options.model) now
      (match options.maxTurns with | some n => if n = 0 then 100 else n | none => 100)
      (match options.maxTurns with | some n => if n = 0 then 100 else n | none => 100)
      0 [("user", [⟨some prompt, none, Json.null⟩])] (by omega)
  refine ⟨.sysInit (getBedrockModelId envBedrockModelId options.model)
      (jsOrString options.permissionMode "default") :: .userEcho prompt :: pre, r, ?_, ?_, hr⟩
  · rw [bedrockQuery_eq, heq]
    simp
  · intro x hx
    rcases List.mem_cons.mp hx with h1 | h2
    · subst h1; rfl
    · rcases List.mem_cons.mp h2 with h3 | h4
      · subst h3; rfl
      · exact hpre x h4

/-- Blocks for which the encode/decode roundtrip can be the identity:
text blocks with a nonempty (truthy) text, and tool_use blocks. -/
def roundtrippable : ContentBlock → Bool
| .text s => !(s == "")
| .toolUse _ _ _ => true
| _ => false

lemma decode_encode_block (b : ContentBlock) (h : roundtrippable b = true) :
    decodeBlock (wireToBedrockBlock (transformBlockToBedrock b)) = [b] := by
  cases b with
  | text s =>
    have hs : s ≠ "" := by simpa [roundtrippable] using h
    simp [transformBlockToBedrock, wireToBedrockBlock, decodeBlock, hs]
  | toolUse i n inp =>
    simp [transformBlockToBedrock, wireToBedrockBlock, decodeBlock]
  | toolResult t c => simp [roundtrippable] at h
  | image src => simp [roundtrippable] at h
  | other raw => simp [roundtrippable] at h

lemma decode_encode_content (bs : List ContentBlock) (h : bs.all roundtrippable = true) :
    ((bs.map transformBlockToBedrock).map wireToBedrockBlock).flatMap decodeBlock = bs := by
  induction bs with
  | nil => simp
  | cons b rest ih =>
    rw [List.all_cons, Bool.and_eq_true] at h
    simp only [List.map_cons, List.flatMap_cons]
    rw [decode_encode_block b h.1, ih h.2]
    simp

/-- C1 (amended): for messages built only from nonempty Text and ToolUse
blocks, decoding the encoding reproduces the content-block sequence
exactly, and the decoded message carries role assistant.  (The original
claim fails for ToolResult, Image and empty-Text blocks, which decoding
drops: see the counterexample.) -/
theorem c1_canonical_roundtrip (role modelId : String) (now : Nat) (bs : List ContentBlock)
    (h : bs.all roundtrippable = true) :
    (roundtripMessage ⟨role, .blocks bs⟩ modelId now).map SDKMessage.content = Except.ok bs ∧
    (roundtripMessage ⟨role, .blocks bs⟩ modelId now).map SDKMessage.role = Except.ok "assistant" := by
  constructor
  · unfold roundtripMessage transformBedrockMessage transformMessageToBedrock
    simp only [Except.map_ok, Except.map]
    simp [decodeBedrockMessage, decodeContentLoop_eq]
    rw [← List.map_map]
    exact decode_encode_content bs h
  · rfl

/-- C1 witness: the roundtrip theorem applied to a concrete message of one
nonempty text block and one tool_use block. -/
theorem c1_canonical_roundtrip_witness :
    (roundtripMessage ⟨"user", .blocks [ContentBlock.text "hi",
        ContentBlock.toolUse "t1" "lookup" (Json.obj [("q", Json.str "x")])]⟩ "m" 7).map
        SDKMessage.content =
      Except.ok [ContentBlock.text "hi",
        ContentBlock.toolUse "t1" "lookup" (Json.obj [("q", Json.str "x")])] ∧
    (roundtripMessage ⟨"user", .blocks [ContentBlock.text "hi",
        ContentBlock.toolUse "t1" "lookup" (Json.obj [("q", Json.str "x")])]⟩ "m" 7).map
        SDKMessage.role = Except.ok "assistant" :=
  c1_canonical_roundtrip "user" "m" 7
    [ContentBlock.text "hi", ContentBlock.toolUse "t1" "lookup" (Json.obj [("q", Json.str "x")])]
    (by rfl)

/-- C1 counterexample: the encoding of a message holding a single Image
block decodes to an empty content array — the Image block is dropped, so
decode(encode(M)) is not M; an empty Text block is likewise dropped. -/
theorem c1_counterexample :
    (roundtripMessage ⟨"assistant", .blocks [ContentBlock.image none]⟩ "m" 0).map
        SDKMessage.content = Except.ok [] ∧
    (roundtripMessage ⟨"assistant", .blocks [ContentBlock.text ""]⟩ "m" 0).map
        SDKMessage.content = Except.ok [] ∧
    ([] : List ContentBlock) ≠ [ContentBlock.image none] := by
  refine ⟨rfl, rfl, ?_⟩
  simp

/-- C2 (amended): decoding a present wire message never raises and maps
its content array blockwise: a block with a truthy text field contributes
a Text block, a block with a toolUse field contributes a ToolUse block,
and a block with neither recognized field contributes nothing — it is
silently dropped rather than preserved as an Opaque block.  (The original
claim, that unmatched blocks yield an Opaque block and no block is
dropped, fails: see the counterexample.) -/
theorem c2_decode_blockwise (bm : BedrockMessage) (modelId : String) (now : Nat)
    (b : BedrockBlock) :
    (transformBedrockMessage (some bm) modelId now).map SDKMessage.content
        = Except.ok ((bm.content.getD []).flatMap decodeBlock) ∧
    ((b.text = none ∨ b.text = some "") → b.toolUse = none → decodeBlock b = []) ∧
    (∀ s, b.text = some s → s ≠ "" → ContentBlock.text s ∈ decodeBlock b) ∧
    (∀ tu, b.toolUse = some tu →
      ContentBlock.toolUse tu.toolUseId tu.name tu.input ∈ decodeBlock b) := by
  refine ⟨?_, ?_, ?_, ?_⟩
  · cases hc : bm.content with
    | none => simp [transformBedrockMessage, decodeBedrockMessage, hc, Except.map]
    | some bs =>
      simp [transformBedrockMessage, decodeBedrockMessage, hc, Except.map, decodeContentLoop_eq]
  · rintro (ht | ht) hu <;> simp [decodeBlock, ht, hu]
  · intro s ht hs
    simp [decodeBlock, ht, hs]
  · intro tu hu
    cases ht : b.text with
    | none => simp [decodeBlock, ht, hu]
    | some s => by_cases hs : s = "" <;> simp [decodeBlock, ht, hu, hs]

/-- C2 witness: the amended decode theorem applied at concrete inputs, one
per guarded conjunct. -/
theorem c2_decode_blockwise_witness :
    (transformBedrockMessage (some ⟨none, some [⟨some "hello", none, Json.null⟩], none, none⟩)
        "m" 0).map SDKMessage.content = Except.ok [ContentBlock.text "hello"] ∧
    decodeBlock ⟨none, none, Json.null⟩ = [] ∧
    ContentBlock.text "hi" ∈ decodeBlock ⟨some "hi", none, Json.null⟩ ∧
    ContentBlock.toolUse "t" "n" Json.null ∈
      decodeBlock ⟨none, some ⟨"t", "n", Json.null⟩, Json.null⟩ := by
  refine ⟨?_, ?_, ?_, ?_⟩
  · exact ((c2_decode_blockwise ⟨none, some [⟨some "hello", none, Json.null⟩], none, none⟩
      "m" 0 ⟨none, none, Json.null⟩).1).trans rfl
  · exact (c2_decode_blockwise ⟨none, none, none, none⟩ "m" 0
      ⟨none, none, Json.null⟩).2.1 (Or.inl rfl) rfl
  · exact (c2_decode_blockwise ⟨none, none, none, none⟩ "m" 0
      ⟨some "hi", none, Json.null⟩).2.2.1 "hi" rfl (by simp)
  · exact (c2_decode_blockwise ⟨none, none, none, none⟩ "m" 0
      ⟨none, some ⟨"t", "n", Json.null⟩, Json.null⟩).2.2.2 ⟨"t", "n", Json.null⟩ rfl

/-- C2 counterexample: a wire message whose single block carries neither a
text field nor a toolUse field (here the image shape) decodes to an empty
content array: the block is dropped and no Opaque block is produced,
refuting the claim that every input block yields some output block. -/
theorem c2_counterexample :
    (transformBedrockMessage
        (some ⟨none, some [⟨none, none, Json.obj [("image", Json.null)]⟩], none, none⟩)
        "m" 0).map SDKMessage.content = Except.ok [] ∧
    (0 : Nat) < [(⟨none, none, Json.obj [("image", Json.null)]⟩ : BedrockBlock)].length := by
  exact ⟨rfl, by simp⟩

/-- C3: encode never rejects or drops a block — the encoded content array
has exactly one wire block per input block — and a block of an
unrecognized kind is encoded as a text payload holding the JSON
serialization of the original block, as checked both symbolically and on
a concrete extension block. -/
theorem c3_encode_never_rejects (role : String) (bs : List ContentBlock) (raw : Json) :
    (transformMessageToBedrock ⟨role, .blocks bs⟩).content.length = bs.length ∧
    transformBlockToBedrock (ContentBlock.other raw) = WireBlock.text (Json.render raw) ∧
    transformBlockToBedrock
        (ContentBlock.other (Json.obj [("type", Json.str "thinking"), ("thinking", Json.str "hm")]))
      = WireBlock.text "\x7b\"type\":\"thinking\",\"thinking\":\"hm\"\x7d" := by
  refine ⟨?_, rfl, ?_⟩
  · simp [transformMessageToBedrock]
  · rfl

/-- C4: with the default turn cap (no maxTurns option) and a backend whose
first reply carries a message and stop reason end_turn, the driver emits
exactly 4 notifications in order: init, user echo, one assistant message,
and a result with success true and subtype success. -/
theorem c4_end_turn_first_turn (backend : Nat → Except String BedrockResponse)
    (envBedrockModelId : Option String) (now : Nat) (prompt : String) (options : QueryOptions)
    (resp : BedrockResponse) (bm : BedrockMessage)
    (hcap : options.maxTurns = none)
    (hb : backend 1 = .ok resp)
    (hm : resp.output.bind BedrockOutput.message = some bm)
    (hstop : resp.stopReason = some "end_turn") :
    bedrockQuery backend envBedrockModelId now prompt options =
      [.sysInit (getBedrockModelId envBedrockModelId options.model)
          (jsOrString options.permissionMode "default"),
       .userEcho prompt,
       .assistant (decodeBedrockMessage bm (getBedrockModelId envBedrockModelId options.model) now),
       .result true "success" none (some "Task completed via Bedrock")
         (estimatedCost [("user", [⟨some prompt, none, Json.null⟩]),
                         ("assistant", bm.content.getD [])])] := by
  rw [bedrockQuery_eq, hcap]
  have hmt : (match (none : Option Nat) with
    | some n => if n = 0 then 100 else n | none => 100) = 100 := rfl
  rw [hmt]
  rw [bedrockLoop_stop backend (getBedrockModelId envBedrockModelId options.model) now 100 0
    [("user", [⟨some prompt, none, Json.null⟩])] resp bm (by omega) hb hm (Or.inl hstop)]
  norm_num [finalResult]

/-- C4 witness: the scenario theorem applied to a concrete one-turn stub
backend. -/
theorem c4_end_turn_first_turn_witness :
    bedrockQuery
        (fun _ => Except.ok ⟨some ⟨some ⟨none, some [⟨some "ok", none, Json.null⟩], none, none⟩⟩,
          some "end_turn"⟩)
        none 0 "p" ⟨"claude-3-haiku-20240307", none, none⟩ =
      [.sysInit "anthropic.claude-3-haiku-20240307-v1:0" "default",
       .userEcho "p",
       .assistant (decodeBedrockMessage ⟨none, some [⟨some "ok", none, Json.null⟩], none, none⟩
         "anthropic.claude-3-haiku-20240307-v1:0" 0),
       .result true "success" none (some "Task completed via Bedrock")
         (estimatedCost [("user", [⟨some "p", none, Json.null⟩]),
                         ("assistant", [⟨some "ok", none, Json.null⟩])])] := by
  have := c4_end_turn_first_turn
    (fun _ => Except.ok ⟨some ⟨some ⟨none, some [⟨some "ok", none, Json.null⟩], none, none⟩⟩,
      some "end_turn"⟩)
    none 0 "p" ⟨"claude-3-haiku-20240307", none, none⟩
    ⟨some ⟨some ⟨none, some [⟨some "ok", none, Json.null⟩], none, none⟩⟩, some "end_turn"⟩
    ⟨none, some [⟨some "ok", none, Json.null⟩], none, none⟩
    rfl rfl rfl rfl
  exact this

/-- C5: with the turn cap set to 3 and a backend that on every turn replies
with a message and stop reason tool_use — a non-terminal stop reason:
the loop is re-entered after each — the driver emits init, user echo,
exactly 3 assistant notifications, then a terminal result with success
true and the soft subtype error_max_turns. -/
theorem c5_tool_use_cap3 (backend : Nat → Except String BedrockResponse)
    (envBedrockModelId : Option String) (now : Nat) (prompt : String) (options : QueryOptions)
    (r1 r2 r3 : BedrockResponse) (b1 b2 b3 : BedrockMessage)
    (hcap : options.maxTurns = some 3)
    (hb1 : backend 1 = .ok r1) (hm1 : r1.output.bind BedrockOutput.message = some b1)
    (hs1 : r1.stopReason = some "tool_use")
    (hb2 : backend 2 = .ok r2) (hm2 : r2.output.bind BedrockOutput.message = some b2)
    (hs2 : r2.stopReason = some "tool_use")
    (hb3 : backend 3 = .ok r3) (hm3 : r3.output.bind BedrockOutput.message = some b3)
    (hs3 : r3.stopReason = some "tool_use") :
    bedrockQuery backend envBedrockModelId now prompt options =
      [.sysInit (getBedrockModelId envBedrockModelId options.model)
          (jsOrString options.permissionMode "default"),
       .userEcho prompt,
       .assistant (decodeBedrockMessage b1 (getBedrockModelId envBedrockModelId options.model) now),
       .assistant (decodeBedrockMessage b2 (getBedrockModelId envBedrockModelId options.model) now),
       .assistant (decodeBedrockMessage b3 (getBedrockModelId envBedrockModelId options.model) now),
       .result true "error_max_turns" none (some "Task completed via Bedrock")
         (estimatedCost [("user", [⟨some prompt, none, Json.null⟩]),
                         ("assistant", b1.content.getD []),
                         ("assistant", b2.content.getD []),
                         ("assistant", b3.content.getD [])])] := by
  rw [bedrockQuery_eq, hcap]
  have hmt : (match (some 3 : Option Nat) with
    | some n => if n = 0 then 100 else n | none => 100) = 3 := rfl
  rw [hmt]
  rw [bedrockLoop_continue backend (getBedrockModelId envBedrockModelId options.model) now 3 0
    [("user", [⟨some prompt, none, Json.null⟩])] r1 b1 (by omega) hb1 hm1
    (by rw [hs1]; simp)]
  rw [bedrockLoop_continue backend (getBedrockModelId envBedrockModelId options.model) now 3 1
    _ r2 b2 (by omega) hb2 hm2 (by rw [hs2]; simp)]
  rw [bedrockLoop_continue backend (getBedrockModelId envBedrockModelId options.model) now 3 2
    _ r3 b3 (by omega) hb3 hm3 (by rw [hs3]; simp)]
  rw [bedrockLoop_done backend (getBedrockModelId envBedrockModelId options.model) now 3 3
    _ (by omega)]
  norm_num [finalResult]

/-- C5 witness: the scenario theorem applied to a concrete stub backend
that always stops with tool_use, with cap 3. -/
theorem c5_tool_use_cap3_witness :
    bedrockQuery
        (fun _ => Except.ok ⟨some ⟨some ⟨none, some [], none, none⟩⟩, some "tool_use"⟩)
        none 0 "p" ⟨"x", some 3, none⟩ =
      [.sysInit "us.anthropic.claude-sonnet-4-20250514-v1:0" "default",
       .userEcho "p",
       .assistant (decodeBedrockMessage ⟨none, some [], none, none⟩
         "us.anthropic.claude-sonnet-4-20250514-v1:0" 0),
       .assistant (decodeBedrockMessage ⟨none, some [], none, none⟩
         "us.anthropic.claude-sonnet-4-20250514-v1:0" 0),
       .assistant (decodeBedrockMessage ⟨none, some [], none, none⟩
         "us.anthropic.claude-sonnet-4-20250514-v1:0" 0),
       .result true "error_max_turns" none (some "Task completed via Bedrock")
         (estimatedCost [("user", [⟨some "p", none, Json.null⟩]),
                         ("assistant", []), ("assistant", []), ("assistant", [])])] := by
  have := c5_tool_use_cap3
    (fun _ => Except.ok ⟨some ⟨some ⟨none, some [], none, none⟩⟩, some "tool_use"⟩)
    none 0 "p" ⟨"x", some 3, none⟩
    ⟨some ⟨some ⟨none, some [], none, none⟩⟩, some "tool_use"⟩
    ⟨some ⟨some ⟨none, some [], none, none⟩⟩, some "tool_use"⟩
    ⟨some ⟨some ⟨none, some [], none, none⟩⟩, some "tool_use"⟩
    ⟨none, some [], none, none⟩ ⟨none, some [], none, none⟩ ⟨none, some [], none, none⟩
    rfl rfl rfl rfl rfl rfl rfl rfl rfl rfl
  exact this

/-- C6: when the backend round trip raises on turn 1, the driver emits
exactly init, user echo, and a terminal result with success false, the
raw error text and zero cost — no assistant notification — and the error
is delivered as a notification, never thrown.  The run depends on no
later backend turn: any second backend agreeing on turn 1 produces the
identical notification sequence, so no further request is issued. -/
theorem c6_error_first_turn (backend backend2 : Nat → Except String BedrockResponse)
    (envBedrockModelId : Option String) (now : Nat) (prompt : String) (options : QueryOptions)
    (e : String)
    (hb : backend 1 = .error e) (hb2 : backend2 1 = .error e) :
    bedrockQuery backend envBedrockModelId now prompt options =
      [.sysInit (getBedrockModelId envBedrockModelId options.model)
          (jsOrString options.permissionMode "default"),
       .userEcho prompt,
       .result false "error_during_execution" (some e) none 0] ∧
    bedrockQuery backend envBedrockModelId now prompt options =
      bedrockQuery backend2 envBedrockModelId now prompt options := by
  have hpos : 0 < (match options.maxTurns with
      | some n => if n = 0 then 100 else n | none => 100) := by
    cases options.maxTurns with
    | none => norm_num
    | some n =>
      by_cases hn : n = 0
      · simp [hn]
      · simp only [if_neg hn]
        omega
  have key : ∀ be : Nat → Except String BedrockResponse, be 1 = .error e →
      bedrockQuery be envBedrockModelId now prompt options =
        [.sysInit (getBedrockModelId envBedrockModelId options.model)
            (jsOrString options.permissionMode "default"),
         .userEcho prompt,
         .result false "error_during_execution" (some e) none 0] := by
    intro be hbe
    rw [bedrockQuery_eq]
    rw [bedrockLoop_error be (getBedrockModelId envBedrockModelId options.model) now
      (match options.maxTurns with | some n => if n = 0 then 100 else n | none => 100) 0
      [("user", [⟨some prompt, none, Json.null⟩])] e hpos hbe]
  exact ⟨key backend hb, (key backend hb).trans (key backend2 hb2).symm⟩

/-- C6 witness: the error scenario applied to concrete throwing backends. -/
theorem c6_error_first_turn_witness :
    bedrockQuery (fun _ => Except.error "quota exceeded") none 0 "p" ⟨"x", none, none⟩ =
      [.sysInit "us.anthropic.claude-sonnet-4-20250514-v1:0" "default",
       .userEcho "p",
       .result false "error_during_execution" (some "quota exceeded") none 0] ∧
    bedrockQuery (fun _ => Except.error "quota exceeded") none 0 "p" ⟨"x", none, none⟩ =
      bedrockQuery (fun t => if t = 1 then Except.error "quota exceeded"
        else Except.ok ⟨none, none⟩) none 0 "p" ⟨"x", none, none⟩ := by
  have := c6_error_first_turn (fun _ => Except.error "quota exceeded")
    (fun t => if t = 1 then Except.error "quota exceeded" else Except.ok ⟨none, none⟩)
    none 0 "p" ⟨"x", none, none⟩ "quota exceeded" rfl rfl
  exact this

/-- C10: whenever the backend returns a message with stop reason end_turn
on the final permitted turn (the incremented turn counter equals the
cap), the loop still ends in a result with success true but subtype
error_max_turns, not success: the subtype is computed solely from the
comparison of the turn counter with the cap, not from whether the last
turn stopped naturally. -/
theorem c10_end_turn_on_last_turn (backend : Nat → Except String BedrockResponse)
    (modelId : String) (now maxTurns turnCount : Nat) (history : List HistEntry)
    (resp : BedrockResponse) (bm : BedrockMessage)
    (hlast : turnCount + 1 = maxTurns)
    (hb : backend (turnCount + 1) = .ok resp)
    (hm : resp.output.bind BedrockOutput.message = some bm)
    (hstop : resp.stopReason = some "end_turn") :
    bedrockLoop backend modelId now maxTurns turnCount history =
      [.assistant (decodeBedrockMessage bm modelId now),
       .result true "error_max_turns" none (some "Task completed via Bedrock")
         (estimatedCost (history ++ [("assistant", bm.content.getD [])]))] := by
  rw [bedrockLoop_stop backend modelId now maxTurns turnCount history resp bm
    (by omega) hb hm (Or.inl hstop)]
  have hge : turnCount + 1 ≥ maxTurns := by omega
  simp [finalResult, hge]

/-- C10 witness: a cap of 1 with end_turn delivered on turn 1. -/
theorem c10_end_turn_on_last_turn_witness :
    bedrockLoop (fun _ => Except.ok ⟨some ⟨some ⟨none, some [], none, none⟩⟩, some "end_turn"⟩)
        "m" 0 1 0 [("user", [⟨some "p", none, Json.null⟩])] =
      [.assistant (decodeBedrockMessage ⟨none, some [], none, none⟩ "m" 0),
       .result true "error_max_turns" none (some "Task completed via Bedrock")
         (estimatedCost [("user", [⟨some "p", none, Json.null⟩]), ("assistant", [])])] := by
  have := c10_end_turn_on_last_turn
    (fun _ => Except.ok ⟨some ⟨some ⟨none, some [], none, none⟩⟩, some "end_turn"⟩)
    "m" 0 1 0 [("user", [⟨some "p", none, Json.null⟩])]
    ⟨some ⟨some ⟨none, some [], none, none⟩⟩, some "end_turn"⟩
    ⟨none, some [], none, none⟩ rfl rfl rfl rfl
  exact this

lemma totalHistoryTokens_go (h : List HistEntry) (a : Nat) :
    h.foldl (fun sum msg => sum + msg.2.length * 4) a
      = a + (h.map fun m => m.2.length * 4).sum := by
  induction h generalizing a with
  | nil => simp
  | cons x xs ih =>
    rw [List.foldl_cons, ih]
    simp [List.map_cons, List.sum_cons]
    omega

lemma totalHistoryTokens_eq (h : List HistEntry) :
    totalHistoryTokens h = (h.map fun m => m.2.length * 4).sum := by
  simpa [totalHistoryTokens] using totalHistoryTokens_go h 0

lemma totalHistoryTokens_append (h1 h2 : List HistEntry) :
    totalHistoryTokens (h1 ++ h2) = totalHistoryTokens h1 + totalHistoryTokens h2 := by
  simp [totalHistoryTokens_eq]

/-- The cost heuristic exactly as the spec words it, for the refinement
comparison: for each message, the count of its content blocks times a
per-block token multiplier, summed across the transcript, divided by
1,000,000 and multiplied by a price-per-million-tokens constant. -/
def specCostFormula (perBlockTokens pricePerMillion : ℚ) (history : List HistEntry) : ℚ :=
  ((history.map fun m => (m.2.length : ℚ) * perBlockTokens).sum / 1000000) * pricePerMillion

/-- C8: the cost estimator agrees with the spec formula at multiplier 4
and price 3 dollars per million tokens, is exactly zero on an empty
transcript, and is monotonically non-decreasing both when a message is
appended to a fixed prefix and when a block is appended to the final
message. -/
theorem c8_cost_estimator (history : List HistEntry) (m : HistEntry) (r : String)
    (bs : List BedrockBlock) (b : BedrockBlock) :
    estimatedCost [] = 0 ∧
    estimatedCost history = specCostFormula 4 3 history ∧
    estimatedCost history ≤ estimatedCost (history ++ [m]) ∧
    estimatedCost (history ++ [(r, bs)]) ≤ estimatedCost (history ++ [(r, bs ++ [b])]) := by
  refine ⟨?_, ?_, ?_, ?_⟩
  · simp [estimatedCost, totalHistoryTokens]
  · unfold estimatedCost specCostFormula
    rw [totalHistoryTokens_eq, Nat.cast_list_sum, List.map_map]
    simp [Function.comp_def]
  · have hle : totalHistoryTokens history ≤ totalHistoryTokens (history ++ [m]) := by
      rw [totalHistoryTokens_append]
      exact Nat.le_add_right _ _
    unfold estimatedCost
    gcongr
  · have hle : totalHistoryTokens (history ++ [(r, bs)])
        ≤ totalHistoryTokens (history ++ [(r, bs ++ [b])]) := by
      rw [totalHistoryTokens_append, totalHistoryTokens_append]
      have : totalHistoryTokens [(r, bs)] ≤ totalHistoryTokens [(r, bs ++ [b])] := by
        simp [totalHistoryTokens_eq]
      omega
    unfold estimatedCost
    gcongr

/-- C9: on the frame sequence [message_start without id,
content_block_delta, message_stop], the reassembler emits exactly 3
canonical events in receipt order; the first is a message_start envelope
carrying a non-empty time-derived synthesized id, role assistant, the
known model id, empty content, and zeroed usage counters since the
backend frame omits usage; the other two frames pass through unchanged. -/
theorem c9_stream_reassembly (modelId : String) (now : Nat) (rawStart rawDelta rawStop : Json)
    (startMsg : Option ChunkStartMessage)
    (hid : startMsg.bind ChunkStartMessage.id = none)
    (husage : startMsg.bind ChunkStartMessage.usage = none) :
    handleStreamingResponse modelId now
        [some ⟨"message_start", startMsg, rawStart⟩,
         some ⟨"content_block_delta", none, rawDelta⟩,
         some ⟨"message_stop", none, rawStop⟩] =
      [.messageStart ("bedrock-" ++ toString now) "assistant" [] modelId ⟨0, 0⟩,
       .passthrough ⟨"content_block_delta", none, rawDelta⟩,
       .passthrough ⟨"message_stop", none, rawStop⟩] ∧
    ("bedrock-" ++ toString now) ≠ "" := by
  constructor
  · simp [handleStreamingResponse, transformStreamChunk, hid, husage, jsOrString]
  · intro hcontr
    have hlen := congrArg String.length hcontr
    rw [String.length_append] at hlen
    have h8 : ("bedrock-" : String).length = 8 := rfl
    have h0 : ("" : String).length = 0 := rfl
    rw [h8, h0] at hlen
    omega

/-- C9 witness: the reassembly theorem applied to concrete frames whose
message_start carries a message object with no id and no usage. -/
theorem c9_stream_reassembly_witness :
    handleStreamingResponse "m" 42
        [some ⟨"message_start", some ⟨none, none⟩, Json.null⟩,
         some ⟨"content_block_delta", none, Json.str "d"⟩,
         some ⟨"message_stop", none, Json.str "s"⟩] =
      [.messageStart ("bedrock-" ++ toString 42) "assistant" [] "m" ⟨0, 0⟩,
       .passthrough ⟨"content_block_delta", none, Json.str "d"⟩,
       .passthrough ⟨"message_stop", none, Json.str "s"⟩] ∧
    ("bedrock-" ++ toString 42) ≠ "" := by
  have := c9_stream_reassembly "m" 42 Json.null (Json.str "d") (Json.str "s")
    (some ⟨none, none⟩) rfl rfl
  exact this
